import Mathlib

/-!
# Verification of the Rubik's cube solver core

Shallow embedding of the cube model (`RubiksCube` in `src/rubiks_cube.cpp`),
the IDA* search kernel (`src/ida_star_solver.cpp`) and the relevant HTTP
handlers (`src/http_server.cpp`), together with theorems settling the frozen
claims about it.

The cube state `faces_` (a `std::array<std::array<char,9>,6>`) is embedded as
a function `Fin 6 → Fin 9 → Char`; the C++ `Face` enum fixes the indices
`UP = 0, DOWN = 1, FRONT = 2, BACK = 3, LEFT = 4, RIGHT = 5`.
Fallible C++ operations (those that `throw`) return `Option`.
-/

namespace RubiksCube

/-- A cube state: six faces of nine sticker characters each,
mirroring `std::array<std::array<char,9>,6> faces_`. -/
def Cube : Type := Fin 6 → Fin 9 → Char

instance : DecidableEq Cube :=
  inferInstanceAs (DecidableEq (Fin 6 → Fin 9 → Char))

/-- `Face::UP = 0`. -/
def UP : Fin 6 := 0
/-- `Face::DOWN = 1`. -/
def DOWN : Fin 6 := 1
/-- `Face::FRONT = 2`. -/
def FRONT : Fin 6 := 2
/-- `Face::BACK = 3`. -/
def BACK : Fin 6 := 3
/-- `Face::LEFT = 4`. -/
def LEFT : Fin 6 := 4
/-- `Face::RIGHT = 5`. -/
def RIGHT : Fin 6 := 5

/-- `RubiksCube::reset()`: U=White, D=Yellow, F=Green, B=Blue, L=Orange, R=Red. -/
def reset : Cube := fun f _ =>
  if f = UP then 'W'
  else if f = DOWN then 'Y'
  else if f = FRONT then 'G'
  else if f = BACK then 'B'
  else if f = LEFT then 'O'
  else 'R'

/-- `RubiksCube::isSolved()`: every sticker equals its face's center. -/
def isSolved (c : Cube) : Bool :=
  decide (∀ f : Fin 6, ∀ i : Fin 9, c f i = c f 4)

/-- Index source for `rotateFaceClockwise`: the new sticker at position `i`
is the old sticker at position `rotCWsrc i` (from the assignments
`f[0]=t[6]; f[1]=t[3]; ...` in `src/rubiks_cube.cpp`). -/
def rotCWsrc : Fin 9 → Fin 9
  | 0 => 6 | 1 => 3 | 2 => 0
  | 3 => 7 | 4 => 4 | 5 => 1
  | 6 => 8 | 7 => 5 | 8 => 2

/-- Index source for `rotateFaceCounterClockwise`. -/
def rotCCWsrc : Fin 9 → Fin 9
  | 0 => 2 | 1 => 5 | 2 => 8
  | 3 => 1 | 4 => 4 | 5 => 7
  | 6 => 0 | 7 => 3 | 8 => 6

/-- `RubiksCube::rotateFaceClockwise(face)`. -/
def rotateFaceClockwise (face : Fin 6) (c : Cube) : Cube :=
  fun f i => if f = face then c face (rotCWsrc i) else c f i

/-- `RubiksCube::rotateFaceCounterClockwise(face)`. -/
def rotateFaceCounterClockwise (face : Fin 6) (c : Cube) : Cube :=
  fun f i => if f = face then c face (rotCCWsrc i) else c f i

/-- `RubiksCube::rotateEdgesClockwise(f1,e1a,e1b,e1c, f2,..., f3,..., f4,...)`:
the four sticker triples are cycled `f1 ← f4 ← f3 ← f2 ← f1` (all reads are of
the pre-call state, exactly as in the C++ which saves `f1`'s values in temps
and otherwise reads each cell before overwriting it). -/
def rotateEdgesClockwise
    (f1 : Fin 6) (e1a e1b e1c : Fin 9)
    (f2 : Fin 6) (e2a e2b e2c : Fin 9)
    (f3 : Fin 6) (e3a e3b e3c : Fin 9)
    (f4 : Fin 6) (e4a e4b e4c : Fin 9)
    (c : Cube) : Cube := fun f i =>
  if f = f1 ∧ i = e1a then c f4 e4a
  else if f = f1 ∧ i = e1b then c f4 e4b
  else if f = f1 ∧ i = e1c then c f4 e4c
  else if f = f4 ∧ i = e4a then c f3 e3a
  else if f = f4 ∧ i = e4b then c f3 e3b
  else if f = f4 ∧ i = e4c then c f3 e3c
  else if f = f3 ∧ i = e3a then c f2 e2a
  else if f = f3 ∧ i = e3b then c f2 e2b
  else if f = f3 ∧ i = e3c then c f2 e2c
  else if f = f2 ∧ i = e2a then c f1 e1a
  else if f = f2 ∧ i = e2b then c f1 e1b
  else if f = f2 ∧ i = e2c then c f1 e1c
  else c f i

/-- `RubiksCube::moveU()`. -/
def moveU (c : Cube) : Cube :=
  rotateEdgesClockwise FRONT 0 1 2 LEFT 0 1 2 BACK 0 1 2 RIGHT 0 1 2
    (rotateFaceClockwise UP c)

/-- `RubiksCube::moveUPrime()`. -/
def moveUPrime (c : Cube) : Cube :=
  rotateEdgesClockwise FRONT 0 1 2 RIGHT 0 1 2 BACK 0 1 2 LEFT 0 1 2
    (rotateFaceCounterClockwise UP c)

/-- `RubiksCube::moveU2()`. -/
def moveU2 (c : Cube) : Cube := moveU (moveU c)

/-- `RubiksCube::moveD()`. -/
def moveD (c : Cube) : Cube :=
  rotateEdgesClockwise FRONT 6 7 8 RIGHT 6 7 8 BACK 6 7 8 LEFT 6 7 8
    (rotateFaceClockwise DOWN c)

/-- `RubiksCube::moveDPrime()`. -/
def moveDPrime (c : Cube) : Cube :=
  rotateEdgesClockwise FRONT 6 7 8 LEFT 6 7 8 BACK 6 7 8 RIGHT 6 7 8
    (rotateFaceCounterClockwise DOWN c)

/-- `RubiksCube::moveD2()`. -/
def moveD2 (c : Cube) : Cube := moveD (moveD c)

/-- `RubiksCube::moveF()`. -/
def moveF (c : Cube) : Cube :=
  rotateEdgesClockwise UP 6 7 8 RIGHT 0 3 6 DOWN 2 1 0 LEFT 8 5 2
    (rotateFaceClockwise FRONT c)

/-- `RubiksCube::moveFPrime()`. -/
def moveFPrime (c : Cube) : Cube :=
  rotateEdgesClockwise UP 6 7 8 LEFT 8 5 2 DOWN 2 1 0 RIGHT 0 3 6
    (rotateFaceCounterClockwise FRONT c)

/-- `RubiksCube::moveF2()`. -/
def moveF2 (c : Cube) : Cube := moveF (moveF c)

/-- `RubiksCube::moveB()`. -/
def moveB (c : Cube) : Cube :=
  rotateEdgesClockwise UP 2 1 0 LEFT 0 3 6 DOWN 6 7 8 RIGHT 8 5 2
    (rotateFaceClockwise BACK c)

/-- `RubiksCube::moveBPrime()`. -/
def moveBPrime (c : Cube) : Cube :=
  rotateEdgesClockwise UP 2 1 0 RIGHT 8 5 2 DOWN 6 7 8 LEFT 0 3 6
    (rotateFaceCounterClockwise BACK c)

/-- `RubiksCube::moveB2()`. -/
def moveB2 (c : Cube) : Cube := moveB (moveB c)

/-- `RubiksCube::moveL()`. -/
def moveL (c : Cube) : Cube :=
  rotateEdgesClockwise UP 0 3 6 FRONT 0 3 6 DOWN 0 3 6 BACK 8 5 2
    (rotateFaceClockwise LEFT c)

/-- `RubiksCube::moveLPrime()`. -/
def moveLPrime (c : Cube) : Cube :=
  rotateEdgesClockwise UP 0 3 6 BACK 8 5 2 DOWN 0 3 6 FRONT 0 3 6
    (rotateFaceCounterClockwise LEFT c)

/-- `RubiksCube::moveL2()`. -/
def moveL2 (c : Cube) : Cube := moveL (moveL c)

/-- `RubiksCube::moveR()`. -/
def moveR (c : Cube) : Cube :=
  rotateEdgesClockwise UP 8 5 2 BACK 0 3 6 DOWN 8 5 2 FRONT 8 5 2
    (rotateFaceClockwise RIGHT c)

/-- `RubiksCube::moveRPrime()`. -/
def moveRPrime (c : Cube) : Cube :=
  rotateEdgesClockwise UP 8 5 2 FRONT 8 5 2 DOWN 8 5 2 BACK 0 3 6
    (rotateFaceCounterClockwise RIGHT c)

/-- `RubiksCube::moveR2()`. -/
def moveR2 (c : Cube) : Cube := moveR (moveR c)

/-- `RubiksCube::applyMove(move)`: the C++ throws `std::invalid_argument` on
any token outside the 18-token alphabet, embedded here as `none`. -/
def applyMove (move : String) (c : Cube) : Option Cube :=
  if move = "U" then some (moveU c)
  else if move = "U'" then some (moveUPrime c)
  else if move = "U2" then some (moveU2 c)
  else if move = "D" then some (moveD c)
  else if move = "D'" then some (moveDPrime c)
  else if move = "D2" then some (moveD2 c)
  else if move = "F" then some (moveF c)
  else if move = "F'" then some (moveFPrime c)
  else if move = "F2" then some (moveF2 c)
  else if move = "B" then some (moveB c)
  else if move = "B'" then some (moveBPrime c)
  else if move = "B2" then some (moveB2 c)
  else if move = "L" then some (moveL c)
  else if move = "L'" then some (moveLPrime c)
  else if move = "L2" then some (moveL2 c)
  else if move = "R" then some (moveR c)
  else if move = "R'" then some (moveRPrime c)
  else if move = "R2" then some (moveR2 c)
  else none

/-- `RubiksCube::applyMoves(moves)`: applies the tokens in order; the first
invalid token throws (hence `none`). -/
def applyMoves (moves : List String) (c : Cube) : Option Cube :=
  match moves with
  | [] => some c
  | m :: ms => (applyMove m c).bind (applyMoves ms)

/-- `RubiksCube::getInverseMove(move)`: two characters ending in `'` drops the
apostrophe, two characters ending in `2` is its own inverse, anything else gets
an apostrophe appended. -/
def getInverseMove (move : String) : String :=
  if move.length = 2 ∧ move.data.getD 1 ' ' = '\'' then
    String.mk [move.data.getD 0 ' ']
  else if move.length = 2 ∧ move.data.getD 1 ' ' = '2' then move
  else move ++ "'"

/-- `RubiksCube::getAllMoves()`: the 18-token alphabet. -/
def getAllMoves : List String :=
  ["U", "U'", "U2", "D", "D'", "D2", "F", "F'", "F2",
   "B", "B'", "B2", "L", "L'", "L2", "R", "R'", "R2"]

/-- `RubiksCube::getBasicMoves()`: the 12 quarter-turns. -/
def getBasicMoves : List String :=
  ["U", "U'", "D", "D'", "F", "F'", "B", "B'", "L", "L'", "R", "R'"]

/-- `RubiksCube::toString()`: face order `UP, DOWN, FRONT, BACK, LEFT, RIGHT`
(enum order 0..5), each face row-major, 54 characters in all. -/
def toStringCube (c : Cube) : String :=
  String.mk ((List.finRange 6).flatMap fun f => (List.finRange 9).map fun i => c f i)

/-- `RubiksCube::fromString(state)`: throws (`none`) unless the string has
exactly 54 characters; otherwise sticker `(f, i)` is character `9*f + i`. -/
def fromString (state : String) : Option Cube :=
  if state.length ≠ 54 then none
  else some (fun f i => state.data.getD (9 * f.val + i.val) 'W')

/-- The loop body of `RubiksCube::getManhattanDistance()`: the number of
non-center stickers that differ from their face's center. -/
def misplacedCount (c : Cube) : Nat :=
  ((List.finRange 6).map fun f =>
    ((List.finRange 9).filter fun i => i ≠ 4 ∧ c f i ≠ c f 4).length).sum

/-- `RubiksCube::getManhattanDistance()`: the misplaced-sticker count divided
by 8 (C++ `int` division; the count is non-negative). -/
def getManhattanDistance (c : Cube) : Int :=
  (misplacedCount c : Int) / 8

/-- `HTTPServer::applyMove(body)` after JSON extraction (`src/http_server.cpp`):
an empty move gives a 400 response, a token rejected by
`RubiksCube::applyMove` is caught and gives 400 (cube unchanged), otherwise
200 with the mutated cube.  The result is (status code, server cube). -/
def httpApplyMove (cube : Cube) (move : String) : Nat × Cube :=
  if move = "" then (400, cube)
  else
    match applyMove move cube with
    | some c' => (200, c')
    | none => (400, cube)

/-- `HTTPServer::setCubeState(body)` after JSON extraction: 400 when the state
is empty or its length is not 54, otherwise `fromString` (whose failure would
also be caught as 400). -/
def setCubeState (cube : Cube) (state : String) : Nat × Cube :=
  if state = "" ∨ state.length ≠ 54 then (400, cube)
  else
    match fromString state with
    | some c' => (200, c')
    | none => (400, cube)

/-- `IDAStarSolver::isRedundantMove(lastMove, nextMove)`: skip a move on the
same face as the previous one, or on the opposite face of the previous one
(both orderings of each opposite pair are skipped). -/
def isRedundantMove (lastMove nextMove : String) : Bool :=
  if lastMove = "" then false
  else
    let lastFace := lastMove.data.getD 0 ' '
    let nextFace := nextMove.data.getD 0 ' '
    if lastFace = nextFace then true
    else if (lastFace = 'U' ∧ nextFace = 'D') ∨ (lastFace = 'D' ∧ nextFace = 'U') then true
    else if (lastFace = 'L' ∧ nextFace = 'R') ∨ (lastFace = 'R' ∧ nextFace = 'L') then true
    else if (lastFace = 'F' ∧ nextFace = 'B') ∨ (lastFace = 'B' ∧ nextFace = 'F') then true
    else false

/-- `std::numeric_limits<int>::max()`, the "no next threshold" sentinel of
`IDAStarSolver::search`. -/
def intMax : Int := 2147483647

/-- Total wrapper of `applyMove` used inside the search kernel, where every
generated token is one of the 12 basic moves and hence valid (the C++ comment
in `src/rubiks_cube.cpp` notes kernel-level invalid moves are impossible by
construction); the default branch is never taken on kernel tokens. -/
def applyMoveD (m : String) (c : Cube) : Cube :=
  (applyMove m c).getD c

/-- `IDAStarSolver::search(cube, g, bound, lastMove)` from
`src/ida_star_solver.cpp`, embedded with a structural `fuel` argument standing
for the recursion depth still available; under the invariant
`g + fuel = bound + 1` (the driver calls with `g = 0`, `fuel = bound + 1`)
the fuel never runs out, because a node with `g = bound + 1` satisfies
`f = g + h > bound` and returns its `f` before recursing.

Return value: the cutoff `f`-value when `f > bound`; `-1` when solved; else
the minimum of the children's results (`intMax` when no child).  The C++
early-returns the first child `-1`; since every result is `≥ -1`, folding
`min` over all children yields the same value. -/
def searchIDA (fuel : Nat) (c : Cube) (g bound : Nat) (lastMove : String) : Int :=
  if (g : Int) + getManhattanDistance c > (bound : Int) then
    (g : Int) + getManhattanDistance c
  else if isSolved c then -1
  else
    match fuel with
    | 0 => intMax
    | fuel' + 1 =>
      ((getBasicMoves.filter fun m => !(isRedundantMove lastMove m)).map
        fun m => searchIDA fuel' (applyMoveD m c) (g + 1) bound m).foldl min intMax

/-- The multiset (as a list, in exploration order) of `f`-values at which the
subtree explored by `searchIDA` is cut off (`f > bound` nodes); mirrors the
recursion of `searchIDA` exactly. -/
def cutoffs (fuel : Nat) (c : Cube) (g bound : Nat) (lastMove : String) : List Int :=
  if (g : Int) + getManhattanDistance c > (bound : Int) then
    [(g : Int) + getManhattanDistance c]
  else if isSolved c then []
  else
    match fuel with
    | 0 => []
    | fuel' + 1 =>
      (getBasicMoves.filter fun m => !(isRedundantMove lastMove m)).flatMap
        fun m => cutoffs fuel' (applyMoveD m c) (g + 1) bound m

/-- `c` is solvable by a sequence of exactly `n` quarter-turns (tokens from
`getBasicMoves`). -/
def QTSolvable (c : Cube) (n : Nat) : Prop :=
  ∃ ms : List String, ms.length = n ∧ (∀ m ∈ ms, m ∈ getBasicMoves) ∧
    ∃ c', applyMoves ms c = some c' ∧ isSolved c' = true

/-- `c` is reachable from the solved (`reset`) state by a finite sequence of
tokens of the 18-token alphabet. -/
def Reachable (c : Cube) : Prop :=
  ∃ ms : List String, (∀ m ∈ ms, m ∈ getAllMoves) ∧ applyMoves ms reset = some c

/-- The state obtained from the solved cube by the scramble `U, D`. -/
def cubeUD : Cube := moveD (moveU reset)

/-! ## Move algebra helper lemmas

For each face `X`, the counter-clockwise turn undoes the clockwise turn and
the clockwise turn has order four.  Both facts are checked sticker by sticker
(54 cells), directly from the tabulated rotations in `src/rubiks_cube.cpp`. -/

theorem moveUPrime_moveU (c : Cube) : moveUPrime (moveU c) = c := by
  funext f i
  fin_cases f <;> fin_cases i <;> rfl

theorem moveU_four (c : Cube) : moveU (moveU (moveU (moveU c))) = c := by
  funext f i
  fin_cases f <;> fin_cases i <;> rfl

theorem moveDPrime_moveD (c : Cube) : moveDPrime (moveD c) = c := by
  funext f i
  fin_cases f <;> fin_cases i <;> rfl

theorem moveD_four (c : Cube) : moveD (moveD (moveD (moveD c))) = c := by
  funext f i
  fin_cases f <;> fin_cases i <;> rfl

theorem moveFPrime_moveF (c : Cube) : moveFPrime (moveF c) = c := by
  funext f i
  fin_cases f <;> fin_cases i <;> rfl

theorem moveF_four (c : Cube) : moveF (moveF (moveF (moveF c))) = c := by
  funext f i
  fin_cases f <;> fin_cases i <;> rfl

theorem moveBPrime_moveB (c : Cube) : moveBPrime (moveB c) = c := by
  funext f i
  fin_cases f <;> fin_cases i <;> rfl

theorem moveB_four (c : Cube) : moveB (moveB (moveB (moveB c))) = c := by
  funext f i
  fin_cases f <;> fin_cases i <;> rfl

theorem moveLPrime_moveL (c : Cube) : moveLPrime (moveL c) = c := by
  funext f i
  fin_cases f <;> fin_cases i <;> rfl

theorem moveL_four (c : Cube) : moveL (moveL (moveL (moveL c))) = c := by
  funext f i
  fin_cases f <;> fin_cases i <;> rfl

theorem moveRPrime_moveR (c : Cube) : moveRPrime (moveR c) = c := by
  funext f i
  fin_cases f <;> fin_cases i <;> rfl

theorem moveR_four (c : Cube) : moveR (moveR (moveR (moveR c))) = c := by
  funext f i
  fin_cases f <;> fin_cases i <;> rfl

/-- The counter-clockwise U turn equals three clockwise U turns. -/
theorem moveUPrime_eq_three (c : Cube) :
    moveUPrime c = moveU (moveU (moveU c)) := by
  calc moveUPrime c = moveUPrime (moveU (moveU (moveU (moveU c)))) := by
        rw [moveU_four]
    _ = moveU (moveU (moveU c)) := moveUPrime_moveU _

/-- The counter-clockwise D turn equals three clockwise D turns. -/
theorem moveDPrime_eq_three (c : Cube) :
    moveDPrime c = moveD (moveD (moveD c)) := by
  calc moveDPrime c = moveDPrime (moveD (moveD (moveD (moveD c)))) := by
        rw [moveD_four]
    _ = moveD (moveD (moveD c)) := moveDPrime_moveD _

/-- The counter-clockwise F turn equals three clockwise F turns. -/
theorem moveFPrime_eq_three (c : Cube) :
    moveFPrime c = moveF (moveF (moveF c)) := by
  calc moveFPrime c = moveFPrime (moveF (moveF (moveF (moveF c)))) := by
        rw [moveF_four]
    _ = moveF (moveF (moveF c)) := moveFPrime_moveF _

/-- The counter-clockwise B turn equals three clockwise B turns. -/
theorem moveBPrime_eq_three (c : Cube) :
    moveBPrime c = moveB (moveB (moveB c)) := by
  calc moveBPrime c = moveBPrime (moveB (moveB (moveB (moveB c)))) := by
        rw [moveB_four]
    _ = moveB (moveB (moveB c)) := moveBPrime_moveB _

/-- The counter-clockwise L turn equals three clockwise L turns. -/
theorem moveLPrime_eq_three (c : Cube) :
    moveLPrime c = moveL (moveL (moveL c)) := by
  calc moveLPrime c = moveLPrime (moveL (moveL (moveL (moveL c)))) := by
        rw [moveL_four]
    _ = moveL (moveL (moveL c)) := moveLPrime_moveL _

/-- The counter-clockwise R turn equals three clockwise R turns. -/
theorem moveRPrime_eq_three (c : Cube) :
    moveRPrime c = moveR (moveR (moveR c)) := by
  calc moveRPrime c = moveRPrime (moveR (moveR (moveR (moveR c)))) := by
        rw [moveR_four]
    _ = moveR (moveR (moveR c)) := moveRPrime_moveR _

/-- The clockwise U turn undoes the counter-clockwise U turn. -/
theorem moveU_moveUPrime (c : Cube) : moveU (moveUPrime c) = c := by
  rw [moveUPrime_eq_three]
  exact moveU_four c

/-- The clockwise D turn undoes the counter-clockwise D turn. -/
theorem moveD_moveDPrime (c : Cube) : moveD (moveDPrime c) = c := by
  rw [moveDPrime_eq_three]
  exact moveD_four c

/-- The clockwise F turn undoes the counter-clockwise F turn. -/
theorem moveF_moveFPrime (c : Cube) : moveF (moveFPrime c) = c := by
  rw [moveFPrime_eq_three]
  exact moveF_four c

/-- The clockwise B turn undoes the counter-clockwise B turn. -/
theorem moveB_moveBPrime (c : Cube) : moveB (moveBPrime c) = c := by
  rw [moveBPrime_eq_three]
  exact moveB_four c

/-- The clockwise L turn undoes the counter-clockwise L turn. -/
theorem moveL_moveLPrime (c : Cube) : moveL (moveLPrime c) = c := by
  rw [moveLPrime_eq_three]
  exact moveL_four c

/-- The clockwise R turn undoes the counter-clockwise R turn. -/
theorem moveR_moveRPrime (c : Cube) : moveR (moveRPrime c) = c := by
  rw [moveRPrime_eq_three]
  exact moveR_four c

/-- A half-turn undoes itself (U2 case): `U2 ∘ U2 = U⁴ = id`. -/
theorem moveU2_moveU2 (c : Cube) : moveU2 (moveU2 c) = c := moveU_four c

/-- A half-turn undoes itself (D2 case). -/
theorem moveD2_moveD2 (c : Cube) : moveD2 (moveD2 c) = c := moveD_four c

/-- A half-turn undoes itself (F2 case). -/
theorem moveF2_moveF2 (c : Cube) : moveF2 (moveF2 c) = c := moveF_four c

/-- A half-turn undoes itself (B2 case). -/
theorem moveB2_moveB2 (c : Cube) : moveB2 (moveB2 c) = c := moveB_four c

/-- A half-turn undoes itself (L2 case). -/
theorem moveL2_moveL2 (c : Cube) : moveL2 (moveL2 c) = c := moveL_four c

/-- A half-turn undoes itself (R2 case). -/
theorem moveR2_moveR2 (c : Cube) : moveR2 (moveR2 c) = c := moveR_four c

end RubiksCube

namespace RubiksCube

/-- **C5.** For every cube state and every face F: applying the quarter-turn
move F four times is the identity; applying the move F2 yields the same state
as applying F twice; and applying the move F' yields the same state as
applying F three times. -/
theorem C5_face_turn_algebra (c : Cube) :
    (moveU (moveU (moveU (moveU c))) = c
      ∧ moveU2 c = moveU (moveU c)
      ∧ moveUPrime c = moveU (moveU (moveU c)))
    ∧ (moveD (moveD (moveD (moveD c))) = c
      ∧ moveD2 c = moveD (moveD c)
      ∧ moveDPrime c = moveD (moveD (moveD c)))
    ∧ (moveF (moveF (moveF (moveF c))) = c
      ∧ moveF2 c = moveF (moveF c)
      ∧ moveFPrime c = moveF (moveF (moveF c)))
    ∧ (moveB (moveB (moveB (moveB c))) = c
      ∧ moveB2 c = moveB (moveB c)
      ∧ moveBPrime c = moveB (moveB (moveB c)))
    ∧ (moveL (moveL (moveL (moveL c))) = c
      ∧ moveL2 c = moveL (moveL c)
      ∧ moveLPrime c = moveL (moveL (moveL c)))
    ∧ (moveR (moveR (moveR (moveR c))) = c
      ∧ moveR2 c = moveR (moveR c)
      ∧ moveRPrime c = moveR (moveR (moveR c))) :=
  ⟨⟨moveU_four c, rfl, moveUPrime_eq_three c⟩,
   ⟨moveD_four c, rfl, moveDPrime_eq_three c⟩,
   ⟨moveF_four c, rfl, moveFPrime_eq_three c⟩,
   ⟨moveB_four c, rfl, moveBPrime_eq_three c⟩,
   ⟨moveL_four c, rfl, moveLPrime_eq_three c⟩,
   ⟨moveR_four c, rfl, moveRPrime_eq_three c⟩⟩

/-- **C3.** For every cube state `c` and every move token `m` of the 18-token
alphabet, applying `m` and then applying `getInverseMove m` restores a state
equal to `c` (the inverse mapping being F ↦ F', F' ↦ F, F2 ↦ F2, as computed
by `getInverseMove`). -/
theorem C3_move_inverse_roundtrip (c : Cube) (m : String)
    (hm : m ∈ getAllMoves) :
    (applyMove m c).bind (applyMove (getInverseMove m)) = some c := by
  fin_cases hm
  · exact congrArg some (moveUPrime_moveU c)
  · exact congrArg some (moveU_moveUPrime c)
  · exact congrArg some (moveU2_moveU2 c)
  · exact congrArg some (moveDPrime_moveD c)
  · exact congrArg some (moveD_moveDPrime c)
  · exact congrArg some (moveD2_moveD2 c)
  · exact congrArg some (moveFPrime_moveF c)
  · exact congrArg some (moveF_moveFPrime c)
  · exact congrArg some (moveF2_moveF2 c)
  · exact congrArg some (moveBPrime_moveB c)
  · exact congrArg some (moveB_moveBPrime c)
  · exact congrArg some (moveB2_moveB2 c)
  · exact congrArg some (moveLPrime_moveL c)
  · exact congrArg some (moveL_moveLPrime c)
  · exact congrArg some (moveL2_moveL2 c)
  · exact congrArg some (moveRPrime_moveR c)
  · exact congrArg some (moveR_moveRPrime c)
  · exact congrArg some (moveR2_moveR2 c)

/-- Witness for C3 at the concrete token `"F'"` on the solved cube. -/
theorem C3_move_inverse_roundtrip_witness :
    (applyMove "F'" reset).bind (applyMove (getInverseMove "F'")) =
      some reset :=
  C3_move_inverse_roundtrip reset "F'" (by decide)

/-- Every token of the 18-token alphabet is accepted by `applyMove`. -/
theorem applyMove_isSome_of_mem (c : Cube) (m : String)
    (hm : m ∈ getAllMoves) : (applyMove m c).isSome = true := by
  fin_cases hm <;> rfl

/-- A token outside the 18-token alphabet is rejected by `applyMove`. -/
theorem applyMove_eq_none_of_not_mem (c : Cube) (m : String)
    (hm : m ∉ getAllMoves) : applyMove m c = none := by
  have h1 : ¬ (m = "U") := fun h => hm (by rw [h]; decide)
  have h2 : ¬ (m = "U'") := fun h => hm (by rw [h]; decide)
  have h3 : ¬ (m = "U2") := fun h => hm (by rw [h]; decide)
  have h4 : ¬ (m = "D") := fun h => hm (by rw [h]; decide)
  have h5 : ¬ (m = "D'") := fun h => hm (by rw [h]; decide)
  have h6 : ¬ (m = "D2") := fun h => hm (by rw [h]; decide)
  have h7 : ¬ (m = "F") := fun h => hm (by rw [h]; decide)
  have h8 : ¬ (m = "F'") := fun h => hm (by rw [h]; decide)
  have h9 : ¬ (m = "F2") := fun h => hm (by rw [h]; decide)
  have h10 : ¬ (m = "B") := fun h => hm (by rw [h]; decide)
  have h11 : ¬ (m = "B'") := fun h => hm (by rw [h]; decide)
  have h12 : ¬ (m = "B2") := fun h => hm (by rw [h]; decide)
  have h13 : ¬ (m = "L") := fun h => hm (by rw [h]; decide)
  have h14 : ¬ (m = "L'") := fun h => hm (by rw [h]; decide)
  have h15 : ¬ (m = "L2") := fun h => hm (by rw [h]; decide)
  have h16 : ¬ (m = "R") := fun h => hm (by rw [h]; decide)
  have h17 : ¬ (m = "R'") := fun h => hm (by rw [h]; decide)
  have h18 : ¬ (m = "R2") := fun h => hm (by rw [h]; decide)
  simp only [applyMove, if_neg h1, if_neg h2, if_neg h3, if_neg h4, if_neg h5,
    if_neg h6, if_neg h7, if_neg h8, if_neg h9, if_neg h10, if_neg h11,
    if_neg h12, if_neg h13, if_neg h14, if_neg h15, if_neg h16, if_neg h17,
    if_neg h18]

/-- A single valid move leaves every face's center sticker unchanged. -/
theorem applyMove_center (m : String) (c c' : Cube)
    (h : applyMove m c = some c') (f : Fin 6) : c' f 4 = c f 4 := by
  by_cases hm : m ∈ getAllMoves
  · fin_cases hm <;>
      · replace h : some _ = some c' := h
        injection h with h2
        subst h2
        fin_cases f <;> rfl
  · rw [applyMove_eq_none_of_not_mem c m hm] at h
    exact Option.noConfusion h

/-- **C6.** For every cube state and every finite sequence of moves drawn from
the 18-token alphabet, applying the sequence succeeds and leaves each face's
position-4 (center) sticker unchanged. -/
theorem C6_centers_fixed (ms : List String) (c : Cube)
    (hms : ∀ m ∈ ms, m ∈ getAllMoves) :
    ∃ c', applyMoves ms c = some c' ∧ ∀ f : Fin 6, c' f 4 = c f 4 := by
  induction ms generalizing c with
  | nil => exact ⟨c, rfl, fun f => rfl⟩
  | cons m ms ih =>
    have hm : m ∈ getAllMoves := hms m (List.mem_cons_self m ms)
    obtain ⟨c1, hc1⟩ :=
      Option.isSome_iff_exists.mp (applyMove_isSome_of_mem c m hm)
    obtain ⟨c', hc', hcen⟩ := ih c1 fun x hx => hms x (List.mem_cons_of_mem m hx)
    refine ⟨c', ?_, fun f => ?_⟩
    · simpa [applyMoves, hc1] using hc'
    · rw [hcen f, applyMove_center m c c1 hc1 f]

/-- Witness for C6: the two-move sequence `U, F2` on the solved cube. -/
theorem C6_centers_fixed_witness :
    ∃ c', applyMoves ["U", "F2"] reset = some c' ∧
      ∀ f : Fin 6, c' f 4 = reset f 4 :=
  C6_centers_fixed ["U", "F2"] reset (by decide)

/-- **C7.** `toString` returns exactly 54 characters listing the faces in enum
order U, D, F, B, L, R, each face row-major (character `9*f + i` is sticker
`(f, i)`), and `fromString` of that output reproduces the cube. -/
theorem C7_serialize_roundtrip (c : Cube) :
    (toStringCube c).length = 54
    ∧ (∀ (f : Fin 6) (i : Fin 9),
        (toStringCube c).data.getD (9 * f.val + i.val) 'W' = c f i)
    ∧ fromString (toStringCube c) = some c := by
  refine ⟨rfl, ?_, ?_⟩
  · intro f i
    fin_cases f <;> fin_cases i <;> rfl
  · refine congrArg some ?_
    funext f i
    fin_cases f <;> fin_cases i <;> rfl

/-- **C8.** `applyMove` succeeds exactly on the 18 tokens of the alphabet, and
the HTTP facade answers 400 on `POST /cube/move` for any other token. -/
theorem C8_move_totality (c : Cube) (m : String) :
    ((applyMove m c).isSome = true ↔ m ∈ getAllMoves)
    ∧ (m ∉ getAllMoves → (httpApplyMove c m).1 = 400) := by
  constructor
  · constructor
    · intro hsome
      by_contra hm
      rw [applyMove_eq_none_of_not_mem c m hm] at hsome
      exact Bool.noConfusion hsome
    · exact applyMove_isSome_of_mem c m
  · intro hm
    unfold httpApplyMove
    split_ifs with he
    · rfl
    · rw [applyMove_eq_none_of_not_mem c m hm]

/-- Witness for C8 at the rejected token `"X"` on the solved cube. -/
theorem C8_move_totality_witness :
    ((applyMove "X" reset).isSome = true ↔ "X" ∈ getAllMoves)
    ∧ (httpApplyMove reset "X").1 = 400 :=
  ⟨(C8_move_totality reset "X").1,
   (C8_move_totality reset "X").2 (by decide)⟩

/-- **C9.** `fromString` succeeds if and only if the input has exactly 54
characters (its symbols are not inspected), and the HTTP facade answers 400 on
`POST /cube/state` whenever the supplied state's length is not 54. -/
theorem C9_state_length (s : String) (cube : Cube) :
    ((fromString s).isSome = true ↔ s.length = 54)
    ∧ (s.length ≠ 54 → (setCubeState cube s).1 = 400) := by
  constructor
  · unfold fromString
    split_ifs with h
    · simp only [Option.isSome_none, Bool.false_eq_true, false_iff]
      exact h
    · simp only [Option.isSome_some, true_iff]
      exact not_not.mp h
  · intro h
    unfold setCubeState
    rw [if_pos (Or.inr h)]

/-- Witness for C9 at the 53-character string of `'W'`s. -/
theorem C9_state_length_witness :
    ((fromString (String.mk (List.replicate 53 'W'))).isSome = true ↔
      (String.mk (List.replicate 53 'W')).length = 54)
    ∧ (setCubeState reset (String.mk (List.replicate 53 'W'))).1 = 400 :=
  ⟨(C9_state_length (String.mk (List.replicate 53 'W')) reset).1,
   (C9_state_length (String.mk (List.replicate 53 'W')) reset).2 (by decide)⟩

/-- **C10.** For every cube state and every token outside the 18-token
alphabet, `applyMove` rejects the token with no mutation (in the embedding:
it returns `none`), and the HTTP facade's 400 response carries the cube
unchanged. -/
theorem C10_invalid_move_no_mutation (c : Cube) (m : String)
    (hm : m ∉ getAllMoves) :
    applyMove m c = none ∧ httpApplyMove c m = (400, c) := by
  refine ⟨applyMove_eq_none_of_not_mem c m hm, ?_⟩
  unfold httpApplyMove
  split_ifs with he
  · rfl
  · rw [applyMove_eq_none_of_not_mem c m hm]

/-- Witness for C10 at the rejected token `"Q"` on the solved cube. -/
theorem C10_invalid_move_no_mutation_witness :
    applyMove "Q" reset = none ∧ httpApplyMove reset "Q" = (400, reset) :=
  C10_invalid_move_no_mutation reset "Q" (by decide)

/-- The heuristic is the floor of the misplaced-sticker count over 8 (the
division of a natural-number cast by 8 computes the Nat division). -/
theorem getManhattanDistance_eq_cast (c : Cube) :
    getManhattanDistance c = ((misplacedCount c / 8 : Nat) : Int) := rfl

/-- The heuristic value is never negative. -/
theorem getManhattanDistance_nonneg (c : Cube) :
    0 ≤ getManhattanDistance c := by
  rw [getManhattanDistance_eq_cast]
  exact Int.natCast_nonneg _

/-- At most 54 stickers can be misplaced. -/
theorem misplacedCount_le (c : Cube) : misplacedCount c ≤ 54 := by
  unfold misplacedCount
  have hface : ∀ f : Fin 6,
      ((List.finRange 9).filter fun i => i ≠ 4 ∧ c f i ≠ c f 4).length ≤ 9 :=
    fun f => le_trans (List.length_filter_le _ _) (by simp)
  calc ((List.finRange 6).map fun f =>
          ((List.finRange 9).filter fun i => i ≠ 4 ∧ c f i ≠ c f 4).length).sum
      ≤ ((List.finRange 6).map fun _ => 9).sum := by
        apply List.sum_le_sum
        intro f _
        exact hface f
    _ = 54 := by decide

/-- The heuristic value never exceeds 6. -/
theorem getManhattanDistance_le_six (c : Cube) :
    getManhattanDistance c ≤ 6 := by
  rw [getManhattanDistance_eq_cast]
  have h54 := misplacedCount_le c
  have : misplacedCount c / 8 ≤ 6 := by omega
  exact_mod_cast this

/-- On a solved cube no sticker is misplaced. -/
theorem misplacedCount_eq_zero_of_solved (c : Cube)
    (h : isSolved c = true) : misplacedCount c = 0 := by
  have hall : ∀ f : Fin 6, ∀ i : Fin 9, c f i = c f 4 := of_decide_eq_true h
  unfold misplacedCount
  have hf : ∀ f ∈ List.finRange 6,
      ((List.finRange 9).filter fun i => i ≠ 4 ∧ c f i ≠ c f 4).length = 0 := by
    intro f _
    rw [List.length_eq_zero, List.filter_eq_nil_iff]
    intro i _
    simp [hall f i]
  rw [List.map_congr_left hf]
  simp

/-- **C2 (amended).** The heuristic returns a non-negative integer, and it
returns 0 on every solved state.  (The original claim's admissibility clause
is refuted by `C2_heuristic_not_admissible` below.) -/
theorem C2_heuristic_nonneg_zero_on_solved (c : Cube) :
    0 ≤ getManhattanDistance c
    ∧ (isSolved c = true → getManhattanDistance c = 0) := by
  refine ⟨getManhattanDistance_nonneg c, fun h => ?_⟩
  rw [getManhattanDistance_eq_cast, misplacedCount_eq_zero_of_solved c h]
  rfl

/-- Witness for the amended C2 on the solved cube. -/
theorem C2_heuristic_nonneg_zero_on_solved_witness :
    0 ≤ getManhattanDistance reset ∧ getManhattanDistance reset = 0 :=
  ⟨(C2_heuristic_nonneg_zero_on_solved reset).1,
   (C2_heuristic_nonneg_zero_on_solved reset).2 (by decide)⟩

/-- **C2 (counterexample).** The claim as stated is false: the state reached
by the scramble `U, D` is solvable in 2 quarter-turns (`D', U'`) but has
heuristic value `24 / 8 = 3 > 2`, so `getManhattanDistance` is not a lower
bound on the minimal quarter-turn solution length of reachable states. -/
theorem C2_heuristic_not_admissible :
    ¬ (∀ c : Cube,
        0 ≤ getManhattanDistance c
        ∧ (isSolved c = true → getManhattanDistance c = 0)
        ∧ (Reachable c → ∀ n : Nat, QTSolvable c n →
            getManhattanDistance c ≤ (n : Int))) := by
  intro hyp
  have hreach : Reachable cubeUD := ⟨["U", "D"], by decide, rfl⟩
  have happ : applyMoves ["D'", "U'"] cubeUD = some reset := by
    show some (moveUPrime (moveDPrime (moveD (moveU reset)))) = some reset
    rw [moveDPrime_moveD, moveUPrime_moveU]
  have hsolv : QTSolvable cubeUD 2 :=
    ⟨["D'", "U'"], rfl, by decide, reset, happ, by decide⟩
  have hle := (hyp cubeUD).2.2 hreach 2 hsolv
  have h3 : getManhattanDistance cubeUD = 3 := by decide
  rw [h3] at hle
  exact absurd hle (by decide)

/-! ## Fold-min helper lemmas for the IDA* kernel -/

theorem foldl_min_le_init (l : List Int) (a : Int) : l.foldl min a ≤ a := by
  induction l generalizing a with
  | nil => exact le_refl a
  | cons x l ih => exact le_trans (ih (min a x)) (min_le_left a x)

theorem foldl_min_le_mem (l : List Int) (a x : Int) (hx : x ∈ l) :
    l.foldl min a ≤ x := by
  induction l generalizing a with
  | nil => cases hx
  | cons y l ih =>
    rcases List.mem_cons.mp hx with rfl | hx'
    · exact le_trans (foldl_min_le_init l (min a x)) (min_le_right a x)
    · exact ih (min a y) hx'

theorem le_foldl_min (l : List Int) (a b : Int) (ha : b ≤ a)
    (hl : ∀ x ∈ l, b ≤ x) : b ≤ l.foldl min a := by
  induction l generalizing a with
  | nil => exact ha
  | cons y l ih =>
    exact ih (min a y) (le_min ha (hl y (List.mem_cons_self y l)))
      fun x hx => hl x (List.mem_cons_of_mem y hx)

theorem foldl_min_eq_init_or_mem (l : List Int) (a : Int) :
    l.foldl min a = a ∨ l.foldl min a ∈ l := by
  induction l generalizing a with
  | nil => exact Or.inl rfl
  | cons y l ih =>
    rcases ih (min a y) with h | h
    · rcases min_choice a y with hm | hm
      · exact Or.inl (h.trans hm)
      · exact Or.inr (List.mem_cons.mpr (Or.inl (h.trans hm)))
    · exact Or.inr (List.mem_cons_of_mem y h)

/-- Every return value of the search kernel is at least the `-1` sentinel. -/
theorem searchIDA_ge_neg_one (fuel : Nat) (c : Cube) (g bound : Nat)
    (lastMove : String) : -1 ≤ searchIDA fuel c g bound lastMove := by
  induction fuel generalizing c g lastMove with
  | zero =>
    unfold searchIDA
    split_ifs with h1 h2
    · have := getManhattanDistance_nonneg c
      omega
    · exact le_refl (-1)
    · show (-1 : Int) ≤ intMax
      decide
  | succ fuel ih =>
    unfold searchIDA
    split_ifs with h1 h2
    · have := getManhattanDistance_nonneg c
      omega
    · exact le_refl (-1)
    · refine le_foldl_min _ _ _ (by decide) ?_
      intro x hx
      obtain ⟨m, _, rfl⟩ := List.mem_map.mp hx
      exact ih (applyMoveD m c) (g + 1) m

/-- **C4.** If `IDAStarSolver::search(c, g, τ, m_prev)` does not return the
`-1` solution sentinel, its return value is the minimum `f = depth + heuristic`
value strictly greater than `τ` encountered in the explored (pruned) subtree —
every cutoff `f` exceeds `τ` and is at least the return value, and the return
value is either `INT_MAX` (no cutoff) or itself one of the cutoff values — and
in particular the returned next threshold is strictly greater than `τ`.
The hypotheses fix the fuel at the driver's invariant (`g + fuel = τ + 1`,
the kernel recursion depth bound) and keep `τ` within `int` range. -/
theorem C4_search_next_threshold (fuel : Nat) (c : Cube) (g bound : Nat)
    (lastMove : String)
    (hfuel : g + fuel = bound + 1)
    (hb : (bound : Int) + 7 ≤ intMax)
    (hne : searchIDA fuel c g bound lastMove ≠ -1) :
    (∀ x ∈ cutoffs fuel c g bound lastMove,
        (bound : Int) < x ∧ searchIDA fuel c g bound lastMove ≤ x)
    ∧ (searchIDA fuel c g bound lastMove = intMax
        ∨ searchIDA fuel c g bound lastMove ∈ cutoffs fuel c g bound lastMove)
    ∧ (bound : Int) < searchIDA fuel c g bound lastMove := by
  induction fuel generalizing c g lastMove with
  | zero =>
    have hg : g = bound + 1 := by omega
    have hf : (g : Int) + getManhattanDistance c > (bound : Int) := by
      have := getManhattanDistance_nonneg c
      omega
    have hS : searchIDA 0 c g bound lastMove
        = (g : Int) + getManhattanDistance c := by
      unfold searchIDA
      rw [if_pos hf]
    have hK : cutoffs 0 c g bound lastMove
        = [(g : Int) + getManhattanDistance c] := by
      unfold cutoffs
      rw [if_pos hf]
    rw [hS, hK]
    refine ⟨?_, Or.inr (List.mem_singleton.mpr rfl), hf⟩
    intro x hx
    rw [List.mem_singleton.mp hx]
    exact ⟨hf, le_refl _⟩
  | succ fuel ih =>
    by_cases hf : (g : Int) + getManhattanDistance c > (bound : Int)
    · have hS : searchIDA (fuel + 1) c g bound lastMove
          = (g : Int) + getManhattanDistance c := by
        unfold searchIDA
        rw [if_pos hf]
      have hK : cutoffs (fuel + 1) c g bound lastMove
          = [(g : Int) + getManhattanDistance c] := by
        unfold cutoffs
        rw [if_pos hf]
      rw [hS, hK]
      refine ⟨?_, Or.inr (List.mem_singleton.mpr rfl), hf⟩
      intro x hx
      rw [List.mem_singleton.mp hx]
      exact ⟨hf, le_refl _⟩
    · by_cases hsol : isSolved c
      · exfalso
        apply hne
        unfold searchIDA
        rw [if_neg hf, if_pos hsol]
      · have hS : searchIDA (fuel + 1) c g bound lastMove
            = ((getBasicMoves.filter fun m => !(isRedundantMove lastMove m)).map
                fun m => searchIDA fuel (applyMoveD m c) (g + 1) bound m).foldl
                  min intMax := by
          conv_lhs => rw [searchIDA]
          rw [if_neg hf, if_neg hsol]
        have hK : cutoffs (fuel + 1) c g bound lastMove
            = (getBasicMoves.filter fun m => !(isRedundantMove lastMove m)).flatMap
                fun m => cutoffs fuel (applyMoveD m c) (g + 1) bound m := by
          conv_lhs => rw [cutoffs]
          rw [if_neg hf, if_neg hsol]
        have hchild : ∀ m ∈ getBasicMoves.filter
            (fun m => !(isRedundantMove lastMove m)),
            searchIDA fuel (applyMoveD m c) (g + 1) bound m ≠ -1 := by
          intro m hmem heq
          apply hne
          rw [hS]
          have hle : (((getBasicMoves.filter fun m =>
              !(isRedundantMove lastMove m)).map
              fun m => searchIDA fuel (applyMoveD m c) (g + 1) bound m).foldl
                min intMax) ≤ -1 := by
            have hmm : (-1 : Int) ∈ (getBasicMoves.filter fun m =>
                !(isRedundantMove lastMove m)).map
                fun m => searchIDA fuel (applyMoveD m c) (g + 1) bound m :=
              List.mem_map.mpr ⟨m, hmem, heq⟩
            exact foldl_min_le_mem _ _ _ hmm
          have hge : -1 ≤ (((getBasicMoves.filter fun m =>
              !(isRedundantMove lastMove m)).map
              fun m => searchIDA fuel (applyMoveD m c) (g + 1) bound m).foldl
                min intMax) := by
            refine le_foldl_min _ _ _ (by decide) ?_
            intro x hx
            obtain ⟨m', _, rfl⟩ := List.mem_map.mp hx
            exact searchIDA_ge_neg_one fuel (applyMoveD m' c) (g + 1) bound m'
          exact le_antisymm hle hge
        have hIH : ∀ m ∈ getBasicMoves.filter
            (fun m => !(isRedundantMove lastMove m)),
            (∀ x ∈ cutoffs fuel (applyMoveD m c) (g + 1) bound m,
                (bound : Int) < x
                ∧ searchIDA fuel (applyMoveD m c) (g + 1) bound m ≤ x)
            ∧ (searchIDA fuel (applyMoveD m c) (g + 1) bound m = intMax
                ∨ searchIDA fuel (applyMoveD m c) (g + 1) bound m
                    ∈ cutoffs fuel (applyMoveD m c) (g + 1) bound m)
            ∧ (bound : Int) < searchIDA fuel (applyMoveD m c) (g + 1) bound m :=
          fun m hmem =>
            ih (applyMoveD m c) (g + 1) m (by omega) (hchild m hmem)
        have hmain : ∀ x ∈ cutoffs (fuel + 1) c g bound lastMove,
            (bound : Int) < x
            ∧ searchIDA (fuel + 1) c g bound lastMove ≤ x := by
          intro x hx
          rw [hK] at hx
          obtain ⟨m, hmem, hxm⟩ := List.mem_flatMap.mp hx
          obtain ⟨hbx, hSx⟩ := (hIH m hmem).1 x hxm
          refine ⟨hbx, ?_⟩
          rw [hS]
          exact le_trans
            (foldl_min_le_mem _ _ _ (List.mem_map_of_mem
              (fun m => searchIDA fuel (applyMoveD m c) (g + 1) bound m) hmem))
            hSx
        have hattain : searchIDA (fuel + 1) c g bound lastMove = intMax
            ∨ searchIDA (fuel + 1) c g bound lastMove
                ∈ cutoffs (fuel + 1) c g bound lastMove := by
          rw [hS, hK]
          rcases foldl_min_eq_init_or_mem
            ((getBasicMoves.filter fun m => !(isRedundantMove lastMove m)).map
              fun m => searchIDA fuel (applyMoveD m c) (g + 1) bound m)
            intMax with h | h
          · exact Or.inl h
          · obtain ⟨m, hmem, hFm⟩ := List.mem_map.mp h
            rcases (hIH m hmem).2.1 with hmax | hmemK
            · exact Or.inl (by rw [← hFm, hmax])
            · exact Or.inr (List.mem_flatMap.mpr ⟨m, hmem, hFm ▸ hmemK⟩)
        refine ⟨hmain, hattain, ?_⟩
        rcases hattain with h | h
        · rw [h]
          omega
        · exact (hmain _ h).1

/-- Witness for C4: one step from the solved cube (state `moveU reset`,
`g = 0`, `τ = 0`), where the kernel is cut off immediately with `f = 1`. -/
theorem C4_search_next_threshold_witness :
    (∀ x ∈ cutoffs 1 (moveU reset) 0 0 "",
        ((0 : Nat) : Int) < x ∧ searchIDA 1 (moveU reset) 0 0 "" ≤ x)
    ∧ (searchIDA 1 (moveU reset) 0 0 "" = intMax
        ∨ searchIDA 1 (moveU reset) 0 0 "" ∈ cutoffs 1 (moveU reset) 0 0 "")
    ∧ ((0 : Nat) : Int) < searchIDA 1 (moveU reset) 0 0 "" :=
  C4_search_next_threshold 1 (moveU reset) 0 0 "" rfl (by decide) (by decide)

end RubiksCube
